import Mathlib

/- Verification development for the "Help From Founder" application.

   The definitions below are a shallow embedding of the program's logic:
   the thread/response lifecycle handlers, the slug generator, the
   anonymous-identity utilities, the email-notification worker and the
   image-relay worker.  Firestore collections are modelled as maps from
   document ids to optional documents (plus lists where the code runs
   collection queries), `localStorage` as a string-keyed map, timestamps
   as naturals, and every call to `Math.random` as an explicit argument.
   Fallible multi-step handlers are modelled on their success paths, with
   a caught error that prevents a write modelled as leaving the store
   unchanged. -/

/-- JavaScript truthiness of a nullable string value: `null`/`undefined`
(modelled as `none`) and the empty string are falsy. -/
def strTruthy : Option String → Bool
  | none => false
  | some s => !s.isEmpty

/-- JavaScript `String.prototype.startsWith`, on the character sequence. -/
def jsStartsWith (s p : String) : Bool := p.data.isPrefixOf s.data

/-- JavaScript `String.prototype.trim`: strip leading and trailing whitespace. -/
def jsTrim (s : String) : String :=
  ⟨((s.data.dropWhile Char.isWhitespace).reverse.dropWhile Char.isWhitespace).reverse⟩

namespace Home

/-- Embedding of `getSolvedPercentage` from the home page:
`if (totalIssues === 0) return 0; return Math.round((solvedIssues / totalIssues) * 100)`.
`Math.round` rounds half towards positive infinity, which is Mathlib's `round`. -/
def getSolvedPercentage (totalIssues solvedIssues : ℕ) : ℤ :=
  if totalIssues = 0 then 0
  else round (((solvedIssues : ℚ) / (totalIssues : ℚ)) * 100)

end Home

namespace AnonUser

/-- Storage key for the anonymous user id. -/
def ANONYMOUS_USER_ID_KEY : String := "anonymous_user_id"

/-- Storage key for the anonymous user name. -/
def ANONYMOUS_USER_NAME_KEY : String := "anonymous_user_name"

/-- Browser `localStorage`: a total map from keys to optional string values. -/
structure LocalStorage where
  items : String → Option String

/-- Browser `localStorage.getItem`. -/
def LocalStorage.getItem (s : LocalStorage) (k : String) : Option String := s.items k

/-- Browser `localStorage.setItem`. -/
def LocalStorage.setItem (s : LocalStorage) (k v : String) : LocalStorage :=
  ⟨fun k' => if k' = k then some v else s.items k'⟩

/-- Word list `adjectives` from the username generator module. -/
def adjectives : List String := [
  "happy", "sunny", "clever", "bright", "swift", "brave", "calm", "cool",
  "fair", "kind", "wise", "nice", "neat", "proud", "super", "gentle",
  "eager", "epic", "zesty", "merry", "noble", "vivid", "bold", "cozy",
  "smart", "keen", "grand", "agile", "quick", "jolly", "lucky", "honest",
  "witty", "fresh", "loyal", "fancy", "jazzy", "mighty", "young", "active",
  "fluffy", "cuddly", "sparkly", "graceful", "cheerful", "dazzling", "glowing", "radiant",
  "friendly", "peaceful", "charming", "brilliant", "colorful", "delightful", "energetic", "playful",
  "majestic", "magical", "joyful", "lively", "talented", "creative", "amazing", "wonderful",
  "shining", "gleaming", "vibrant", "spirited", "adventurous", "dynamic", "passionate", "fearless",
  "focused", "handsome", "beautiful", "daring", "confident", "comical", "curious", "determined",
  "electric", "excited", "fabulous", "fantastic", "fiery", "gallant", "gifted", "glorious",
  "grateful", "heroic", "humble", "innocent", "inspired", "legendary", "marvelous", "optimistic",
  "peaceful", "perky", "pleasant", "polished", "powerful", "precious", "remarkable", "resourceful",
  "respected", "sincere", "skillful", "stellar", "stunning", "terrific", "thoughtful", "thriving",
  "tranquil", "triumphant", "upbeat", "valiant", "versatile", "victorious", "vigilant", "virtuous",
  "warm", "worthy", "zealous", "electric", "cosmic", "crystal", "diamond", "emerald",
  "golden", "silver", "platinum", "ruby", "sapphire", "amber", "bronze", "copper",
  "jade", "marble", "opal", "pearl", "quartz", "coral", "ivory", "azure"]

/-- Word list `nouns` from the username generator module. -/
def nouns : List String := [
  "panda", "tiger", "eagle", "otter", "koala", "fox", "dolphin", "turtle",
  "rabbit", "wolf", "whale", "falcon", "parrot", "lion", "dragon", "phoenix",
  "zebra", "giraffe", "penguin", "buffalo", "raccoon", "squirrel", "lynx", "raven",
  "badger", "puma", "gazelle", "bear", "lemur", "seal", "shark", "leopard",
  "robin", "falcon", "hawk", "owl", "sparrow", "meerkat", "cobra", "jaguar",
  "toucan", "panther", "cheetah", "elephant", "gorilla", "hippo", "rhino", "monkey",
  "hedgehog", "hamster", "ferret", "weasel", "mouse", "duck", "goose", "swan",
  "crane", "heron", "flamingo", "peacock", "parrot", "stork", "pelican", "seagull",
  "dinosaur", "mammoth", "unicorn", "griffin", "pegasus", "mermaid", "centaur", "minotaur",
  "kraken", "hydra", "chimera", "cyclops", "sphinx", "yeti", "bigfoot", "dragon",
  "alligator", "crocodile", "chameleon", "iguana", "tortoise", "python", "viper", "basilisk",
  "scorpion", "beetle", "butterfly", "firefly", "ladybug", "mantis", "dragonfly", "caterpillar",
  "warrior", "wizard", "ninja", "samurai", "knight", "ranger", "pirate", "captain",
  "sailor", "pilot", "astronaut", "explorer", "pioneer", "hunter", "archer", "wanderer",
  "voyager", "nomad", "viking", "titan", "giant", "hero", "champion", "guardian",
  "sentinel", "watcher", "defender", "protector", "paladin", "templar", "crusader", "valkyrie",
  "mountain", "valley", "canyon", "river", "ocean", "island", "desert", "forest",
  "jungle", "tundra", "meadow", "prairie", "volcano", "glacier", "waterfall", "lagoon",
  "nebula", "galaxy", "comet", "meteor", "planet", "star", "asteroid", "supernova",
  "horizon", "eclipse", "rainbow", "aurora", "thunder", "lightning", "hurricane", "tornado"]

/-- Embedding of `getRandomWord(wordArray)`: returns `wordArray[Math.floor(Math.random() * length)]`;
the random draw is supplied as the natural `r` (reduced modulo the length, which gives
exactly the indices `Math.floor` can produce). -/
def getRandomWord (wordArray : List String) (r : ℕ) : String :=
  wordArray.getD (r % wordArray.length) ""

/-- Embedding of `capitalize(word)`: `word.charAt(0).toUpperCase() + word.slice(1)`. -/
def capitalize (word : String) : String :=
  match word.data with
  | [] => ""
  | c :: cs => ⟨c.toUpper :: cs⟩

/-- Embedding of `getAnonymousUserId()`: return the stored id when truthy, otherwise mint
`Math.floor(10000000 + Math.random() * 90000000)` (an 8-digit number, supplied through
the random draw `r`), persist it and return it.  Result: the returned id and the
updated storage. -/
def getAnonymousUserId (r : ℕ) (s : LocalStorage) : String × LocalStorage :=
  let userId := s.getItem ANONYMOUS_USER_ID_KEY
  if strTruthy userId then (userId.getD "", s)
  else
    let newId := Nat.repr (10000000 + r % 90000000)
    (newId, s.setItem ANONYMOUS_USER_ID_KEY newId)

/-- Embedding of `generateMemorableUsername()`: adjective + noun + 2-3 digit number
(`Math.floor(10 + Math.random() * 990)`), each random draw supplied as an argument. -/
def generateMemorableUsername (rAdj rNoun rNum : ℕ) : String :=
  capitalize (getRandomWord adjectives rAdj) ++ capitalize (getRandomWord nouns rNoun)
    ++ Nat.repr (10 + rNum % 990)

/-- Embedding of `getAnonymousUserName()`: return the stored name when truthy, otherwise mint a
memorable username, persist it and return it. -/
def getAnonymousUserName (rAdj rNoun rNum : ℕ) (s : LocalStorage) : String × LocalStorage :=
  let userName := s.getItem ANONYMOUS_USER_NAME_KEY
  if strTruthy userName then (userName.getD "", s)
  else
    let newName := generateMemorableUsername rAdj rNoun rNum
    (newName, s.setItem ANONYMOUS_USER_NAME_KEY newName)

end AnonUser

namespace Slug

/-- A character kept by the slug regex character class `[a-z0-9]`. -/
def isSlugChar (c : Char) : Bool :=
  (('a' ≤ c) && (c ≤ 'z')) || (('0' ≤ c) && (c ≤ '9'))

/-- The regex replacement `/[^a-z0-9]+/g` → `'-'`: every maximal run of characters
outside `[a-z0-9]` becomes a single hyphen.  The boolean state of the fold records
whether the previous character was part of such a run. -/
def collapseRuns (l : List Char) : List Char :=
  (l.foldl (fun st c =>
      if isSlugChar c then (st.1 ++ [c], false)
      else if st.2 then st else (st.1 ++ ['-'], true)) ([], false)).1

/-- Embedding of `generateSlug` from `NewProject.tsx`: lowercase, replace runs of
non-alphanumerics with hyphens, strip leading/trailing hyphens, truncate to 60. -/
def generateSlug (projectName : String) : String :=
  let lowered := projectName.data.map Char.toLower
  let replaced := collapseRuns lowered
  let trimmed := ((replaced.dropWhile (· == '-')).reverse.dropWhile (· == '-')).reverse
  ⟨trimmed.take 60⟩

/-- Embedding of `isSlugAvailable(slug)`: the query for projects with this slug returns no document;
`existing` is the list of slugs present in the projects collection. -/
def isSlugAvailable (existing : List String) (slug : String) : Bool :=
  !existing.contains slug

/-- The candidate tried at loop iteration `k` of `getUniqueSlug`: the base slug first,
then the base slug, a hyphen and the decimal counter for counter 1, 2, ... -/
def slugCandidate (baseSlug : String) : ℕ → String
  | 0 => baseSlug
  | k + 1 => baseSlug ++ "-" ++ Nat.repr (k + 1)

/-- The `while (!isAvailable)` loop of `getUniqueSlug`, with explicit fuel (the loop in
the source is unbounded; `getUniqueSlug` supplies fuel sufficient for termination). -/
def getUniqueSlugAux (existing : List String) (baseSlug : String) : ℕ → ℕ → String
  | 0, k => slugCandidate baseSlug k
  | fuel + 1, k =>
    if isSlugAvailable existing (slugCandidate baseSlug k) then slugCandidate baseSlug k
    else getUniqueSlugAux existing baseSlug fuel (k + 1)

/-- Embedding of `getUniqueSlug(baseSlug)`: try `baseSlug`, then `baseSlug-1`,
`baseSlug-2`, ... until a candidate is not taken. -/
def getUniqueSlug (existing : List String) (baseSlug : String) : String :=
  getUniqueSlugAux existing baseSlug (existing.length + 1) 0

end Slug

namespace ImageRelay

/-- An uploaded file from the multipart form: MIME content type plus raw bytes. -/
structure UploadFile where
  mimeType : String
  bytes : List ℕ

/-- A `put` performed against the R2 object store. -/
structure PutOp where
  key : String
  bytes : List ℕ
  contentType : String

/-- Result of the upload handler: HTTP status, the JSON `success` flag, and the list of
object-store writes the handler performed. -/
structure UploadResult where
  status : ℕ
  success : Bool
  puts : List PutOp

/-- Embedding of the `ImageUpload` POST handler from the r2-image-handler worker.
`file?` is `formData.get('file')` (`none` when absent) and `uuid` the random v4 id. -/
def imageUploadPost (file? : Option UploadFile) (uuid : String) : UploadResult :=
  match file? with
  | none => { status := 400, success := false, puts := [] }
  | some file =>
    if !(jsStartsWith file.mimeType "image/") then
      { status := 400, success := false, puts := [] }
    else
      let parts := file.mimeType.splitOn "/"
      let fileExtension :=
        match parts.get? 1 with
        | some e => if e.isEmpty then "png" else e
        | none => "png"
      let key := uuid ++ "." ++ fileExtension
      { status := 200, success := true,
        puts := [{ key := key, bytes := file.bytes, contentType := file.mimeType }] }

end ImageRelay

namespace EmailWorker

/-- A `{email, name?}` recipient entry from the request JSON; either field may be
absent (`none`). -/
structure Recipient where
  email : Option String
  name : Option String
deriving DecidableEq

/-- The raw `recipients` field of the request body, before validation: absent (or
otherwise falsy), a truthy non-array value, or an actual array. -/
inductive RecipientsField
  | missing
  | notArray
  | arr (l : List Recipient)
deriving DecidableEq

/-- JavaScript truthiness of the `recipients` field: absent/falsy values are falsy,
everything else (arrays included, even empty ones) is truthy. -/
def RecipientsField.truthy : RecipientsField → Bool
  | .missing => false
  | .notArray => true
  | .arr _ => true

/-- The dynamically-typed request body of `POST /api/send-email`, with each field
optional exactly as in the untyped JSON the worker casts. -/
structure EmailNotificationRequest where
  reqType : Option String
  projectId : Option String
  projectName : Option String
  issueId : Option String
  issueTitle : Option String
  recipients : RecipientsField
  issueContent : Option String
  responseContent : Option String
  responseAuthor : Option String
deriving DecidableEq

/-- Outcome of one invocation of the send-email route: the HTTP status, the JSON
`success` flag, the `to` address list of every `sendEmail` call the handler made
(in order), and the reported success count. -/
structure SendOutcome where
  status : ℕ
  success : Bool
  sends : List (List String)
  successCount : ℕ
deriving DecidableEq

/-- The recipient list of a request whose `recipients` field is an array. -/
def recipientList (req : EmailNotificationRequest) : List Recipient :=
  match req.recipients with
  | .arr l => l
  | _ => []

/-- The email address used for a recipient (always present on the send path). -/
def recipientEmail (r : Recipient) : String := r.email.getD ""

/-- Embedding of the `POST /api/send-email` handler of the email-notification worker.
`apiKey` is `env.SENDGRID_API_KEY`; `sendOk i` tells whether the `sendEmail` call for
the `i`-th recipient completes without throwing (the upstream provider is an oracle).
The checks appear in source order; a thrown configuration error is caught by the
outer catch and returned as HTTP 500. -/
def handleSendEmail (apiKey : Option String) (req : EmailNotificationRequest)
    (sendOk : ℕ → Bool) : SendOutcome :=
  if !strTruthy apiKey then
    { status := 500, success := false, sends := [], successCount := 0 }
  else if !strTruthy req.reqType then
    { status := 400, success := false, sends := [], successCount := 0 }
  else if req.reqType ≠ some "new_issue" ∧ req.reqType ≠ some "new_response" then
    { status := 400, success := false, sends := [], successCount := 0 }
  else if !strTruthy req.projectId then
    { status := 400, success := false, sends := [], successCount := 0 }
  else if !strTruthy req.projectName then
    { status := 400, success := false, sends := [], successCount := 0 }
  else if !strTruthy req.issueId then
    { status := 400, success := false, sends := [], successCount := 0 }
  else if !strTruthy req.issueTitle then
    { status := 400, success := false, sends := [], successCount := 0 }
  else if !req.recipients.truthy then
    { status := 400, success := false, sends := [], successCount := 0 }
  else
    match req.recipients with
    | .missing => { status := 400, success := false, sends := [], successCount := 0 }
    | .notArray => { status := 400, success := false, sends := [], successCount := 0 }
    | .arr l =>
      if l.isEmpty then
        { status := 400, success := false, sends := [], successCount := 0 }
      else if l.any (fun r => !strTruthy r.email) then
        { status := 400, success := false, sends := [], successCount := 0 }
      else if req.reqType = some "new_issue" ∧ !strTruthy req.issueContent then
        { status := 400, success := false, sends := [], successCount := 0 }
      else if req.reqType = some "new_response" ∧
          (!strTruthy req.responseContent || !strTruthy req.responseAuthor) then
        { status := 400, success := false, sends := [], successCount := 0 }
      else
        let sends := l.map (fun r => [recipientEmail r])
        let successCount := ((List.range l.length).filter (fun i => sendOk i)).length
        let errorsCount := ((List.range l.length).filter (fun i => !sendOk i)).length
        if successCount = l.length then
          { status := 200, success := true, sends := sends, successCount := successCount }
        else
          { status := if errorsCount = l.length then 500 else 207,
            success := decide (0 < successCount), sends := sends,
            successCount := successCount }

/-- All validation checks of the handler, bundled: a request is valid iff the handler
reaches the sending code. -/
def validRequest (req : EmailNotificationRequest) : Bool :=
  strTruthy req.reqType &&
  (req.reqType == some "new_issue" || req.reqType == some "new_response") &&
  strTruthy req.projectId && strTruthy req.projectName &&
  strTruthy req.issueId && strTruthy req.issueTitle &&
  (match req.recipients with
   | .arr l => !l.isEmpty && l.all (fun r => strTruthy r.email)
   | _ => false) &&
  (if req.reqType == some "new_issue" then strTruthy req.issueContent
   else strTruthy req.responseContent && strTruthy req.responseAuthor)

/-- The malformed payloads enumerated by the spec: missing/invalid `type`,
missing/empty/malformed `recipients`, or a missing type-specific field. -/
def badRequest (req : EmailNotificationRequest) : Prop :=
  req.reqType = none
  ∨ (∃ t, req.reqType = some t ∧ t ≠ "new_issue" ∧ t ≠ "new_response")
  ∨ req.recipients = .missing
  ∨ req.recipients = .notArray
  ∨ req.recipients = .arr []
  ∨ (∃ l, req.recipients = .arr l ∧ ∃ r ∈ l, ¬strTruthy r.email)
  ∨ (req.reqType = some "new_issue" ∧ ¬strTruthy req.issueContent)
  ∨ (req.reqType = some "new_response" ∧
      (¬strTruthy req.responseContent ∨ ¬strTruthy req.responseAuthor))

/-- Concrete recipient list used by the claim witnesses. -/
def sampleRecipients : List Recipient :=
  [{ email := some "founder@acme.io", name := some "Founder" },
   { email := some "asker@mail.io", name := none }]

/-- Concrete valid `new_response` payload used by the claim witnesses. -/
def sampleResponseRequest : EmailNotificationRequest :=
  { reqType := some "new_response", projectId := some "p1", projectName := some "Acme",
    issueId := some "t1", issueTitle := some "Crash on load",
    recipients := .arr sampleRecipients, issueContent := none,
    responseContent := some "We fixed it", responseAuthor := some "Founder" }

/-- Concrete malformed payload (missing `type` and `recipients`) used by the claim
witnesses. -/
def sampleBadRequest : EmailNotificationRequest :=
  { reqType := none, projectId := none, projectName := none, issueId := none,
    issueTitle := none, recipients := .missing, issueContent := none,
    responseContent := none, responseAuthor := none }

end EmailWorker

namespace EmailSvc

/-- A document of the `users` collection (fields used by `getThreadParticipants`). -/
structure UserDoc where
  email : Option String
  displayName : Option String

/-- A document of the `threads` collection (fields used by `getThreadParticipants`);
`createdAt` is `none` when the timestamp is absent (`?.toDate() || new Date(0)`). -/
structure ThreadDoc where
  projectId : String
  authorId : Option String
  createdAt : Option ℕ

/-- A document of the `projects` collection (fields used by `getThreadParticipants`). -/
structure ProjectDoc where
  ownerId : Option String

/-- A document of the `responses` collection (fields used by `getThreadParticipants`). -/
structure ResponseDoc where
  threadId : String
  authorId : Option String
  createdAt : Option ℕ

/-- The Firestore database as seen by the email service. -/
structure Db where
  threads : String → Option ThreadDoc
  projects : String → Option ProjectDoc
  users : String → Option UserDoc
  responses : List ResponseDoc

/-- An entry of the internal `recipients` array of `getThreadParticipants`, before the
`userId`/`timestamp` fields are stripped. -/
structure ParticipantRec where
  userId : String
  email : String
  name : String
  timestamp : ℕ

/-- A `{email, name}` pair as returned to the caller. -/
structure EmailRecipient where
  email : String
  name : String

/-- The `authorId`/`timestamp` projection of a response used for recency sorting. -/
structure RespEntry where
  authorId : Option String
  timestamp : ℕ

/-- Descending-timestamp order on participant records: the comparator
`(a, b) => b.timestamp - a.timestamp` sorts greater timestamps first. -/
def tsGE (a b : ParticipantRec) : Prop := b.timestamp ≤ a.timestamp

instance : DecidableRel tsGE := fun a b => Nat.decLe b.timestamp a.timestamp

instance : IsTotal ParticipantRec tsGE := ⟨fun a b => le_total b.timestamp a.timestamp⟩

instance : IsTrans ParticipantRec tsGE := ⟨fun _ _ _ h1 h2 => le_trans h2 h1⟩

/-- Descending-timestamp order on response entries. -/
def respGE (a b : RespEntry) : Prop := b.timestamp ≤ a.timestamp

instance : DecidableRel respGE := fun a b => Nat.decLe b.timestamp a.timestamp

instance : IsTotal RespEntry respGE := ⟨fun a b => le_total b.timestamp a.timestamp⟩

instance : IsTrans RespEntry respGE := ⟨fun _ _ _ h1 h2 => le_trans h2 h1⟩

/-- Evaluation of `userData.displayName || defaultName`. -/
def nameOr (dn : Option String) (dflt : String) : String :=
  match dn with
  | some s => if s.isEmpty then dflt else s
  | none => dflt

/-- One push site of `getThreadParticipants`: mark `uid` as processed, then push a
recipient when `uid` resolves to a user document with a truthy email (otherwise the
identity is silently dropped). -/
def addParticipant (db : Db) (uid : String) (defaultName : String) (ts : ℕ)
    (st : List ParticipantRec × List String) : List ParticipantRec × List String :=
  let processed := st.2.concat uid
  match db.users uid with
  | none => (st.1, processed)
  | some u =>
    match u.email with
    | some e =>
      if e.isEmpty then (st.1, processed)
      else (st.1.concat { userId := uid, email := e, name := nameOr u.displayName defaultName,
                          timestamp := ts }, processed)
    | none => (st.1, processed)

/-- The responses of the thread projected to `{authorId, timestamp}`, as queried by
`getThreadParticipants`. -/
def threadRespEntries (db : Db) (threadId : String) : List RespEntry :=
  (db.responses.filter (fun r => r.threadId == threadId)).map
    (fun r => { authorId := r.authorId, timestamp := r.createdAt.getD 0 })

/-- The thread-author step of `getThreadParticipants`: add the author when the thread
carries an `authorId` that is truthy and differs from the excluded identity. -/
def authorStep (db : Db) (currentUserId : Option String) (threadData : ThreadDoc)
    (st : List ParticipantRec × List String) : List ParticipantRec × List String :=
  match threadData.authorId with
  | some aid =>
    if !aid.isEmpty && some aid ≠ currentUserId then
      addParticipant db aid "Thread Author" (threadData.createdAt.getD 0) st
    else st
  | none => st

/-- The project-owner step of `getThreadParticipants`: add the owner when the project
exists, its `ownerId` is truthy, differs from the excluded identity and was not
already processed.  The owner receives the thread-creation timestamp. -/
def ownerStep (db : Db) (currentUserId : Option String) (threadData : ThreadDoc)
    (st : List ParticipantRec × List String) : List ParticipantRec × List String :=
  match db.projects threadData.projectId with
  | none => st
  | some projectData =>
    match projectData.ownerId with
    | some oid =>
      if !oid.isEmpty && some oid ≠ currentUserId && !st.2.contains oid then
        addParticipant db oid "Project Owner" (threadData.createdAt.getD 0) st
      else st
    | none => st

/-- The per-response step of `getThreadParticipants`, run over the 5 most recent
responses: add the responder when truthy, not excluded, and not yet processed. -/
def respFold (db : Db) (currentUserId : Option String)
    (st : List ParticipantRec × List String) (resp : RespEntry) :
    List ParticipantRec × List String :=
  match resp.authorId with
  | some rid =>
    if !rid.isEmpty && some rid ≠ currentUserId && !st.2.contains rid then
      addParticipant db rid "Thread Participant" resp.timestamp st
    else st
  | none => st

/-- Embedding of `getThreadParticipants(threadId, currentUserId)` keeping the internal
`userId`/`timestamp` fields: thread author first, then the project owner, then the 5
most recent responders, each added only when not excluded and not already processed;
finally the accumulated recipients are sorted newest-first and capped at 5. -/
def getThreadParticipantsFull (db : Db) (threadId : String) (currentUserId : Option String) :
    List ParticipantRec :=
  match db.threads threadId with
  | none => []
  | some threadData =>
    (List.insertionSort tsGE
      (((List.insertionSort respGE (threadRespEntries db threadId)).take 5).foldl
        (respFold db currentUserId)
        (ownerStep db currentUserId threadData
          (authorStep db currentUserId threadData ([], [])))).1).take 5

/-- Embedding of `getThreadParticipants(threadId, currentUserId)` as returned to the
caller, with the internal fields stripped. -/
def getThreadParticipants (db : Db) (threadId : String) (currentUserId : Option String) :
    List EmailRecipient :=
  (getThreadParticipantsFull db threadId currentUserId).map
    (fun p => { email := p.email, name := p.name })

/-- The identities `getThreadParticipants` may draw from: the thread author, the
project owner, and the authors of the 5 most recent responses. -/
def candidateIds (db : Db) (threadId : String) : List String :=
  match db.threads threadId with
  | none => []
  | some threadData =>
    threadData.authorId.toList
    ++ (match db.projects threadData.projectId with
        | some p => p.ownerId.toList
        | none => [])
    ++ ((List.insertionSort respGE (threadRespEntries db threadId)).take 5).filterMap
        (fun r => r.authorId)

/-- The identity `uid` resolves (via the `users` collection) to the email carried by
the participant record: a user document exists and its `email` field is truthy. -/
def emailResolvable (db : Db) (p : ParticipantRec) : Prop :=
  ∃ u, db.users p.userId = some u ∧ u.email = some p.email ∧ p.email ≠ ""

end EmailSvc

namespace Lifecycle

/-- A document of the `threads` collection, with the fields written by the lifecycle
handlers.  Fields never written by `addDoc` start out `none`. -/
structure ThreadDoc where
  projectId : String
  title : String
  content : String
  status : String
  authorName : String
  authorId : Option String
  anonymousId : Option String
  isPublic : Bool
  tag : String
  responseCount : ℤ
  closingReason : Option String
  closingNote : Option String
  closedBy : Option String
  createdAt : ℕ
  updatedAt : ℕ
  closedAt : Option ℕ

/-- A document of the `responses` collection as written by `handleSubmitResponse`. -/
structure ResponseDoc where
  threadId : String
  content : String
  authorName : String
  authorId : Option String
  anonymousId : Option String
  isFounder : Bool
  createdAt : ℕ

/-- A document of the `projects` collection (fields used by the lifecycle handlers). -/
structure ProjectDoc where
  ownerId : String
  totalIssues : ℤ
  closedIssues : ℤ

/-- The Firestore state the lifecycle handlers act on: `threads` and `projects` keyed
by document id, `responses` as a list (the handlers only query it by `threadId`). -/
structure Store where
  threads : String → Option ThreadDoc
  projects : String → Option ProjectDoc
  responses : List ResponseDoc

/-- Firestore `updateDoc` on a thread: rewrite the document when it exists; a missing
document makes `updateDoc` throw, which every handler catches without writing. -/
def Store.updateThread (s : Store) (tid : String) (f : ThreadDoc → ThreadDoc) : Store :=
  { s with threads := fun t => if t = tid then (s.threads tid).map f else s.threads t }

/-- Firestore `updateDoc` on a project. -/
def Store.updateProject (s : Store) (pid : String) (f : ProjectDoc → ProjectDoc) : Store :=
  { s with projects := fun p => if p = pid then (s.projects pid).map f else s.projects p }

/-- Success path of `handleNewThreadSubmit`: `addDoc` a thread with `status: 'open'`
and `responseCount: 0` under the fresh id `tid`, then increment the project's
`totalIssues` counter. -/
def createThread (s : Store) (tid projectId title content authorName tag : String)
    (currentUid : Option String) (anonUserId : String) (now : ℕ) : Store :=
  let anonymousId := if currentUid.isNone then some anonUserId else none
  let s1 : Store :=
    { s with threads := fun t =>
        if t = tid then
          some { projectId := projectId, title := title, content := content,
                 status := "open", authorName := authorName, authorId := currentUid,
                 anonymousId := anonymousId, isPublic := true, tag := tag,
                 responseCount := 0, closingReason := none, closingNote := none,
                 closedBy := none, createdAt := now, updatedAt := now, closedAt := none }
        else s.threads t }
  s1.updateProject projectId (fun p => { p with totalIssues := p.totalIssues + 1 })

/-- Success path of `handleSubmitResponse`: `addDoc` a response (with `isFounder`
computed against the project owner), then increment the thread's `responseCount`.
The handler requires the thread and project from state; their absence aborts before
any write. -/
def createResponse (s : Store) (tid content authorName : String)
    (currentUid : Option String) (anonUserId : String) (now : ℕ) : Store :=
  match s.threads tid with
  | none => s
  | some t =>
    match s.projects t.projectId with
    | none => s
    | some p =>
      let isFounder :=
        match currentUid with
        | some u => u = p.ownerId
        | none => false
      let anonymousId := if currentUid.isNone then some anonUserId else none
      let s1 : Store :=
        { s with responses := s.responses ++
            [{ threadId := tid, content := content, authorName := authorName,
               authorId := currentUid, anonymousId := anonymousId,
               isFounder := isFounder, createdAt := now }] }
      s1.updateThread tid (fun t' => { t' with responseCount := t'.responseCount + 1 })

/-- Embedding of `handleCloseThread`: set `status: 'closed'`, the closing fields and `closedAt`,
then increment the project's `closedIssues`.  (This handler performs no ownership
check of its own; the modal that reaches it is opened by `handleUpdateStatus`.) -/
def handleCloseThread (s : Store) (tid closingReason closingNote founderName : String)
    (now : ℕ) : Store :=
  match s.threads tid with
  | none => s
  | some t =>
    let s1 := s.updateThread tid (fun t' =>
      { t' with status := "closed", closingReason := some closingReason,
                closingNote := if (jsTrim closingNote).isEmpty then none
                               else some (jsTrim closingNote),
                closedBy := some founderName, updatedAt := now, closedAt := some now })
    s1.updateProject t.projectId (fun p => { p with closedIssues := p.closedIssues + 1 })

/-- Embedding of `handleUpdateStatus` for `newStatus = open`: only the project owner may reopen; clear
`closingReason`/`closingNote`/`closedBy`, set `status: 'open'`, then decrement the
project's `closedIssues`. -/
def handleUpdateStatusOpen (s : Store) (tid : String) (currentUid : String) (now : ℕ) :
    Store :=
  match s.threads tid with
  | none => s
  | some t =>
    match s.projects t.projectId with
    | none => s
    | some p =>
      if currentUid = p.ownerId then
        let s1 := s.updateThread tid (fun t' =>
          { t' with status := "open", updatedAt := now, closingReason := none,
                    closingNote := none, closedBy := none })
        s1.updateProject t.projectId (fun q => { q with closedIssues := q.closedIssues - 1 })
      else s

/-- Embedding of `handleDeleteThread`: only the project owner may delete; delete every response
whose `threadId` matches, delete the thread, then decrement `totalIssues` (and
`closedIssues` when the thread was closed). -/
def handleDeleteThread (s : Store) (tid : String) (currentUid : String) : Store :=
  match s.threads tid with
  | none => s
  | some t =>
    match s.projects t.projectId with
    | none => s
    | some p =>
      if currentUid = p.ownerId then
        let s1 : Store := { s with responses := s.responses.filter (fun r => r.threadId ≠ tid) }
        let s2 : Store := { s1 with threads := fun t' => if t' = tid then none else s1.threads t' }
        s2.updateProject t.projectId (fun q =>
          if t.status = "closed" then
            { q with totalIssues := q.totalIssues - 1, closedIssues := q.closedIssues - 1 }
          else { q with totalIssues := q.totalIssues - 1 })
      else s

/-- The argument bundle of one `handleSubmitResponse` call. -/
structure ResponsePayload where
  content : String
  authorName : String
  currentUid : Option String
  anonUserId : String
  now : ℕ

/-- A sequence of `handleSubmitResponse` calls against the same thread. -/
def applyResponses (s : Store) (tid : String) (ps : List ResponsePayload) : Store :=
  ps.foldl (fun s' pl =>
    createResponse s' tid pl.content pl.authorName pl.currentUid pl.anonUserId pl.now) s

/-- Concrete project document used by the claim witnesses. -/
def sampleProject : ProjectDoc := { ownerId := "owner1", totalIssues := 0, closedIssues := 0 }

def sampleThread : ThreadDoc :=
  { projectId := "p1", title := "T", content := "c", status := "open", authorName := "A",
    authorId := none, anonymousId := some "12345678", isPublic := true, tag := "bug",
    responseCount := 0, closingReason := none, closingNote := none, closedBy := none,
    createdAt := 0, updatedAt := 0, closedAt := none }

def emptyStore : Store :=
  { threads := fun _ => none,
    projects := fun pid => if pid = "p1" then some sampleProject else none,
    responses := [] }

def threadStore : Store :=
  { threads := fun tid => if tid = "t1" then some sampleThread else none,
    projects := fun pid => if pid = "p1" then some sampleProject else none,
    responses := [] }

def samplePayload : ResponsePayload :=
  { content := "thanks", authorName := "User", currentUid := none,
    anonUserId := "12345678", now := 5 }

end Lifecycle

/- Helper lemmas about `Nat.repr` (decimal rendering is nonempty and injective). -/

theorem toDigitsCore_length_le_length (b : ℕ) :
    ∀ (f n : ℕ) (l : List Char), l.length ≤ (Nat.toDigitsCore b f n l).length := by
  intro f
  induction f with
  | zero => intro n l; simp [Nat.toDigitsCore]
  | succ f ih =>
    intro n l
    simp only [Nat.toDigitsCore]
    split
    · simp
    · exact le_trans (by simp) (ih (n / b) (Nat.digitChar (n % b) :: l))

theorem toDigits_length_pos (b n : ℕ) : 1 ≤ (Nat.toDigits b n).length := by
  show 1 ≤ (Nat.toDigitsCore b (n + 1) n []).length
  simp only [Nat.toDigitsCore]
  split
  · simp
  · exact le_trans (by simp) (toDigitsCore_length_le_length b n (n / b) [Nat.digitChar (n % b)])

theorem repr_ne_empty (n : ℕ) : Nat.repr n ≠ "" := by
  intro h
  have hd : Nat.toDigits 10 n = ([] : List Char) := congrArg String.data h
  have h1 := toDigits_length_pos 10 n
  rw [hd] at h1
  simp at h1

theorem append_repr_ne_empty (x : String) (m : ℕ) : x ++ Nat.repr m ≠ "" := by
  intro h
  have hd := congrArg String.data h
  rw [String.data_append] at hd
  have h2 : (Nat.repr m).data = ([] : List Char) := (List.append_eq_nil.mp hd).2
  exact repr_ne_empty m (String.ext h2)

theorem isEmpty_false_of_ne (s : String) (h : s ≠ "") : s.isEmpty = false := by
  cases hb : s.isEmpty
  · rfl
  · exact absurd ((String.isEmpty_iff s).mp hb) h

/-- Claim C10: the solved-percentage computation is total: it returns 0 when
`totalIssues = 0` (the division is guarded), and `round (100 * solvedIssues /
totalIssues)` otherwise. -/
theorem c10_getSolvedPercentage_total (totalIssues solvedIssues : ℕ) :
    Home.getSolvedPercentage totalIssues solvedIssues =
      if totalIssues = 0 then 0
      else round ((100 * (solvedIssues : ℚ)) / (totalIssues : ℚ)) := by
  unfold Home.getSolvedPercentage
  rcases eq_or_ne totalIssues 0 with h | h
  · simp [h]
  · simp only [h, if_false]
    congr 1
    ring

/-- Claim C8: an image upload whose file content type does not start with `image/`
receives HTTP 400 and performs no write to the object store. -/
theorem c8_upload_rejects_non_image (file : ImageRelay.UploadFile) (uuid : String)
    (h : jsStartsWith file.mimeType "image/" = false) :
    (ImageRelay.imageUploadPost (some file) uuid).status = 400 ∧
    (ImageRelay.imageUploadPost (some file) uuid).puts = [] := by
  unfold ImageRelay.imageUploadPost
  simp [h]

/-- Witness for C8: a concrete `text/plain` upload is rejected with no store write. -/
theorem c8_upload_rejects_non_image_witness :
    jsStartsWith "text/plain" "image/" = false ∧
    (ImageRelay.imageUploadPost (some ⟨"text/plain", []⟩) "logo").status = 400 ∧
    (ImageRelay.imageUploadPost (some ⟨"text/plain", []⟩) "logo").puts = [] :=
  ⟨by decide, c8_upload_rejects_non_image ⟨"text/plain", []⟩ "logo" (by decide)⟩

/- Helper lemmas for the anonymous-identity claim. -/

theorem getAnonymousUserId_spec (r : ℕ) (s : AnonUser.LocalStorage) :
    (AnonUser.getAnonymousUserId r s).2.getItem AnonUser.ANONYMOUS_USER_ID_KEY
      = some (AnonUser.getAnonymousUserId r s).1
    ∧ (AnonUser.getAnonymousUserId r s).1 ≠ "" := by
  unfold AnonUser.getAnonymousUserId
  cases hv : s.getItem AnonUser.ANONYMOUS_USER_ID_KEY with
  | none =>
    simp only [hv, strTruthy, Bool.false_eq_true, if_false]
    refine ⟨?_, repr_ne_empty _⟩
    simp [AnonUser.LocalStorage.getItem, AnonUser.LocalStorage.setItem]
  | some v =>
    by_cases hne : v.isEmpty = true
    · simp only [hv, strTruthy, hne, Bool.not_true, Bool.false_eq_true, if_false]
      refine ⟨?_, repr_ne_empty _⟩
      simp [AnonUser.LocalStorage.getItem, AnonUser.LocalStorage.setItem]
    · have hne' : v.isEmpty = false := by revert hne; cases v.isEmpty <;> simp
      simp only [hv, strTruthy, hne', Bool.not_false, if_true, Option.getD_some]
      constructor
      · trivial
      · intro h0
        rw [h0] at hne'
        exact absurd hne' (by decide)

theorem getAnonymousUserId_of_stored (r : ℕ) (s : AnonUser.LocalStorage) (v : String)
    (hv : s.getItem AnonUser.ANONYMOUS_USER_ID_KEY = some v) (hne : v ≠ "") :
    AnonUser.getAnonymousUserId r s = (v, s) := by
  unfold AnonUser.getAnonymousUserId
  simp [hv, strTruthy, isEmpty_false_of_ne v hne]

theorem getAnonymousUserName_spec (rAdj rNoun rNum : ℕ) (s : AnonUser.LocalStorage) :
    (AnonUser.getAnonymousUserName rAdj rNoun rNum s).2.getItem
        AnonUser.ANONYMOUS_USER_NAME_KEY
      = some (AnonUser.getAnonymousUserName rAdj rNoun rNum s).1
    ∧ (AnonUser.getAnonymousUserName rAdj rNoun rNum s).1 ≠ "" := by
  unfold AnonUser.getAnonymousUserName
  cases hv : s.getItem AnonUser.ANONYMOUS_USER_NAME_KEY with
  | none =>
    simp only [hv, strTruthy, Bool.false_eq_true, if_false]
    refine ⟨?_, append_repr_ne_empty _ _⟩
    simp [AnonUser.LocalStorage.getItem, AnonUser.LocalStorage.setItem]
  | some v =>
    by_cases hne : v.isEmpty = true
    · simp only [hv, strTruthy, hne, Bool.not_true, Bool.false_eq_true, if_false]
      refine ⟨?_, append_repr_ne_empty _ _⟩
      simp [AnonUser.LocalStorage.getItem, AnonUser.LocalStorage.setItem]
    · have hne' : v.isEmpty = false := by revert hne; cases v.isEmpty <;> simp
      simp only [hv, strTruthy, hne', Bool.not_false, if_true, Option.getD_some]
      constructor
      · trivial
      · intro h0
        rw [h0] at hne'
        exact absurd hne' (by decide)

theorem getAnonymousUserName_of_stored (rAdj rNoun rNum : ℕ) (s : AnonUser.LocalStorage)
    (v : String) (hv : s.getItem AnonUser.ANONYMOUS_USER_NAME_KEY = some v)
    (hne : v ≠ "") :
    AnonUser.getAnonymousUserName rAdj rNoun rNum s = (v, s) := by
  unfold AnonUser.getAnonymousUserName
  simp [hv, strTruthy, isEmpty_false_of_ne v hne]

/-- Claim C9: in one storage context, two calls of `getAnonymousUserId` return the same
id (and the second call leaves storage unchanged), and likewise two calls of
`getAnonymousUserName` return the same name: the first call mints and persists the
value, every later call returns the persisted value. -/
theorem c9_anonymous_identity_idempotent (s : AnonUser.LocalStorage)
    (r1 r2 ra1 rn1 rm1 ra2 rn2 rm2 : ℕ) :
    ((AnonUser.getAnonymousUserId r2 (AnonUser.getAnonymousUserId r1 s).2).1
        = (AnonUser.getAnonymousUserId r1 s).1
      ∧ (AnonUser.getAnonymousUserId r2 (AnonUser.getAnonymousUserId r1 s).2).2
        = (AnonUser.getAnonymousUserId r1 s).2)
    ∧ ((AnonUser.getAnonymousUserName ra2 rn2 rm2
          (AnonUser.getAnonymousUserName ra1 rn1 rm1 s).2).1
        = (AnonUser.getAnonymousUserName ra1 rn1 rm1 s).1
      ∧ (AnonUser.getAnonymousUserName ra2 rn2 rm2
          (AnonUser.getAnonymousUserName ra1 rn1 rm1 s).2).2
        = (AnonUser.getAnonymousUserName ra1 rn1 rm1 s).2) := by
  constructor
  · obtain ⟨h1, h2⟩ := getAnonymousUserId_spec r1 s
    have h3 := getAnonymousUserId_of_stored r2 _ _ h1 h2
    exact ⟨congrArg Prod.fst h3, congrArg Prod.snd h3⟩
  · obtain ⟨h1, h2⟩ := getAnonymousUserName_spec ra1 rn1 rm1 s
    have h3 := getAnonymousUserName_of_stored ra2 rn2 rm2 _ _ h1 h2
    exact ⟨congrArg Prod.fst h3, congrArg Prod.snd h3⟩

/- Helper lemmas for the slug claim: `Nat.repr` is injective, so the successive slug
candidates are pairwise distinct and the collision-resolution loop terminates within
its fuel. -/

theorem toDigitsCore_eq_digits (b : ℕ) (hb : 1 < b) :
    ∀ (f : ℕ) {n : ℕ} (l : List Char), 0 < n → n < b ^ f →
      Nat.toDigitsCore b f n l = ((Nat.digits b n).map Nat.digitChar).reverse ++ l := by
  intro f
  induction f with
  | zero =>
    intro n l hn hlt
    simp at hlt
    omega
  | succ f ih =>
    intro n l hn hlt
    rw [Nat.digits_def' hb hn]
    simp only [Nat.toDigitsCore, List.map_cons, List.reverse_cons]
    by_cases hdiv : n / b = 0
    · simp [hdiv, Nat.digits_zero]
    · have hpos : 0 < n / b := Nat.pos_of_ne_zero hdiv
      have hlt' : n / b < b ^ f := Nat.div_lt_of_lt_mul (by rwa [← pow_succ'])
      simp only [hdiv, if_false]
      rw [ih (Nat.digitChar (n % b) :: l) hpos hlt']
      simp

theorem repr_eq_digits (n : ℕ) (hn : 0 < n) :
    Nat.repr n = (((Nat.digits 10 n).map Nat.digitChar).reverse).asString := by
  have h1 : Nat.toDigits 10 n = ((Nat.digits 10 n).map Nat.digitChar).reverse ++ [] := by
    show Nat.toDigitsCore 10 (n + 1) n [] = _
    exact toDigitsCore_eq_digits 10 (by norm_num) (n + 1) [] hn
      (lt_of_lt_of_le (Nat.lt_pow_self (by norm_num) n)
        (Nat.pow_le_pow_right (by norm_num) (Nat.le_succ n)))
  unfold Nat.repr
  rw [h1, List.append_nil]

theorem digitChar_inj_lt : ∀ x : Fin 10, ∀ y : Fin 10,
    Nat.digitChar x.val = Nat.digitChar y.val → x = y := by decide

theorem map_digitChar_inj : ∀ (l1 l2 : List ℕ), (∀ x ∈ l1, x < 10) → (∀ x ∈ l2, x < 10) →
    l1.map Nat.digitChar = l2.map Nat.digitChar → l1 = l2 := by
  intro l1
  induction l1 with
  | nil => intro l2 _ _ h; cases l2 <;> simp_all
  | cons a l1 ih =>
    intro l2 h1 h2 h
    cases l2 with
    | nil => simp at h
    | cons b l2 =>
      simp only [List.map_cons, List.cons.injEq] at h
      have ha : a < 10 := h1 a (by simp)
      have hb : b < 10 := h2 b (by simp)
      have := digitChar_inj_lt ⟨a, ha⟩ ⟨b, hb⟩ h.1
      have hab : a = b := by simpa [Fin.ext_iff] using this
      rw [hab, ih l2 (fun x hx => h1 x (by simp [hx])) (fun x hx => h2 x (by simp [hx])) h.2]

theorem repr_injective : Function.Injective Nat.repr := by
  intro m n h
  rcases Nat.eq_zero_or_pos m with hm | hm <;> rcases Nat.eq_zero_or_pos n with hn | hn
  · omega
  · subst hm
    rw [repr_eq_digits n hn] at h
    have hd : (['0'] : List Char) = ((Nat.digits 10 n).map Nat.digitChar).reverse :=
      congrArg String.data h
    have h2 : (Nat.digits 10 n).map Nat.digitChar = ['0'] := by
      have := congrArg List.reverse hd
      simpa using this.symm
    have h3 : Nat.digits 10 n = [0] :=
      map_digitChar_inj _ [0] (fun x hx => Nat.digits_lt_base (by norm_num) hx)
        (by simp) h2
    have h4 := Nat.ofDigits_digits 10 n
    rw [h3] at h4
    simp [Nat.ofDigits] at h4
    omega
  · subst hn
    rw [repr_eq_digits m hm] at h
    have hd : ((Nat.digits 10 m).map Nat.digitChar).reverse = (['0'] : List Char) :=
      congrArg String.data h
    have h2 : (Nat.digits 10 m).map Nat.digitChar = ['0'] := by
      have := congrArg List.reverse hd
      simpa using this
    have h3 : Nat.digits 10 m = [0] :=
      map_digitChar_inj _ [0] (fun x hx => Nat.digits_lt_base (by norm_num) hx)
        (by simp) h2
    have h4 := Nat.ofDigits_digits 10 m
    rw [h3] at h4
    simp [Nat.ofDigits] at h4
    omega
  · rw [repr_eq_digits m hm, repr_eq_digits n hn] at h
    have hd : ((Nat.digits 10 m).map Nat.digitChar).reverse
        = ((Nat.digits 10 n).map Nat.digitChar).reverse := congrArg String.data h
    have h3 := List.reverse_injective hd
    have h4 : Nat.digits 10 m = Nat.digits 10 n :=
      map_digitChar_inj _ _ (fun x hx => Nat.digits_lt_base (by norm_num) hx)
        (fun x hx => Nat.digits_lt_base (by norm_num) hx) h3
    have h5 := Nat.ofDigits_digits 10 m
    rw [h4, Nat.ofDigits_digits] at h5
    omega

theorem repr_data_length_pos (m : ℕ) : 0 < (Nat.repr m).data.length := by
  rcases Nat.eq_zero_or_pos ((Nat.repr m).data.length) with h | h
  · exact absurd (String.ext (List.length_eq_zero.mp h)) (repr_ne_empty m)
  · exact h

theorem slugCandidate_injective (baseSlug : String) :
    Function.Injective (Slug.slugCandidate baseSlug) := by
  intro i j h
  match i, j with
  | 0, 0 => rfl
  | 0, j + 1 =>
    exfalso
    have hd := congrArg String.data h
    simp only [Slug.slugCandidate, String.data_append] at hd
    have hlen := congrArg List.length hd
    simp only [List.length_append] at hlen
    have := repr_data_length_pos (j + 1)
    omega
  | i + 1, 0 =>
    exfalso
    have hd := congrArg String.data h
    simp only [Slug.slugCandidate, String.data_append] at hd
    have hlen := congrArg List.length hd
    simp only [List.length_append] at hlen
    have := repr_data_length_pos (i + 1)
    omega
  | i + 1, j + 1 =>
    have hd := congrArg String.data h
    simp only [Slug.slugCandidate, String.data_append, List.append_assoc] at hd
    have h1 := List.append_cancel_left hd
    have h2 := List.append_cancel_left h1
    have h3 : Nat.repr (i + 1) = Nat.repr (j + 1) := String.ext h2
    have := repr_injective h3
    omega

theorem getUniqueSlugAux_spec (existing : List String) (baseSlug : String) :
    ∀ (fuel k : ℕ), (∃ j, j ≤ fuel ∧ Slug.slugCandidate baseSlug (k + j) ∉ existing) →
      ∃ m, Slug.getUniqueSlugAux existing baseSlug fuel k
            = Slug.slugCandidate baseSlug (k + m)
        ∧ Slug.slugCandidate baseSlug (k + m) ∉ existing
        ∧ ∀ i < m, Slug.slugCandidate baseSlug (k + i) ∈ existing := by
  intro fuel
  induction fuel with
  | zero =>
    rintro k ⟨j, hj, hfree⟩
    have hj0 : j = 0 := by omega
    subst hj0
    exact ⟨0, by simp [Slug.getUniqueSlugAux], hfree, by omega⟩
  | succ fuel ih =>
    rintro k ⟨j, hj, hfree⟩
    by_cases hk : Slug.slugCandidate baseSlug k ∈ existing
    · have hne : Slug.isSlugAvailable existing (Slug.slugCandidate baseSlug k) = false := by
        simp [Slug.isSlugAvailable, List.contains, hk]
      have hj0 : j ≠ 0 := by
        intro h0
        rw [h0, Nat.add_zero] at hfree
        exact hfree hk
      obtain ⟨j', rfl⟩ : ∃ j', j = j' + 1 := ⟨j - 1, by omega⟩
      obtain ⟨m, hm1, hm2, hm3⟩ := ih (k + 1)
        ⟨j', by omega, by rwa [show k + 1 + j' = k + (j' + 1) by omega]⟩
      refine ⟨m + 1, ?_, ?_, ?_⟩
      · simp only [Slug.getUniqueSlugAux, hne, Bool.false_eq_true, if_false]
        rw [hm1]
        congr 1
        omega
      · rwa [show k + (m + 1) = k + 1 + m by omega]
      · intro i hi
        cases i with
        | zero => simpa using hk
        | succ i' =>
          have := hm3 i' (by omega)
          rwa [show k + 1 + i' = k + (i' + 1) by omega] at this
    · have hav : Slug.isSlugAvailable existing (Slug.slugCandidate baseSlug k) = true := by
        simp [Slug.isSlugAvailable, List.contains, hk]
      refine ⟨0, ?_, by simpa using hk, by omega⟩
      simp [Slug.getUniqueSlugAux, hav]

theorem exists_free_candidate (existing : List String) (baseSlug : String) :
    ∃ j, j ≤ existing.length ∧ Slug.slugCandidate baseSlug j ∉ existing := by
  by_contra hall
  push_neg at hall
  have hsub : ∀ x ∈ (List.range (existing.length + 1)).map (Slug.slugCandidate baseSlug),
      x ∈ existing := by
    intro x hx
    simp only [List.mem_map, List.mem_range] at hx
    obtain ⟨j, hj, rfl⟩ := hx
    exact hall j (by omega)
  have hnodup : ((List.range (existing.length + 1)).map (Slug.slugCandidate baseSlug)).Nodup :=
    (List.nodup_range _).map (slugCandidate_injective baseSlug)
  have h1 : ((List.range (existing.length + 1)).map
      (Slug.slugCandidate baseSlug)).toFinset.card = existing.length + 1 := by
    rw [List.toFinset_card_of_nodup hnodup]
    simp
  have h2 : ((List.range (existing.length + 1)).map
      (Slug.slugCandidate baseSlug)).toFinset ⊆ existing.toFinset := by
    intro x hx
    rw [List.mem_toFinset] at hx ⊢
    exact hsub x hx
  have h3 := Finset.card_le_card h2
  have h4 := List.toFinset_card_le existing
  omega

/-- Claim C7: creating "Acme" with no project slugged `acme` yields slug `acme`, a
second "Acme" yields `acme-1`, and in general the slug is derived from the name
(lowercased, non-alphanumeric runs replaced by hyphens, trimmed, length-limited) and
collisions are resolved by the smallest suffix counter unique among existing slugs. -/
theorem c7_slug_generation (existing : List String) (projectName : String) :
    Slug.generateSlug "Acme" = "acme"
    ∧ Slug.getUniqueSlug [] (Slug.generateSlug "Acme") = "acme"
    ∧ Slug.getUniqueSlug ["acme"] (Slug.generateSlug "Acme") = "acme-1"
    ∧ ∃ k, Slug.getUniqueSlug existing (Slug.generateSlug projectName)
          = Slug.slugCandidate (Slug.generateSlug projectName) k
        ∧ Slug.slugCandidate (Slug.generateSlug projectName) k ∉ existing
        ∧ ∀ j < k, Slug.slugCandidate (Slug.generateSlug projectName) j ∈ existing := by
  refine ⟨by decide, by decide, by decide, ?_⟩
  obtain ⟨j, hj, hfree⟩ := exists_free_candidate existing (Slug.generateSlug projectName)
  obtain ⟨m, hm1, hm2, hm3⟩ := getUniqueSlugAux_spec existing (Slug.generateSlug projectName)
    (existing.length + 1) 0 ⟨j, by omega, by simpa using hfree⟩
  exact ⟨m, by simpa [Slug.getUniqueSlug] using hm1, by simpa using hm2,
    fun i hi => by simpa using hm3 i hi⟩

/- Helper lemmas for the notification-dispatcher claims. -/

theorem filter_range_length_eq_iff (N : ℕ) (p : ℕ → Bool) :
    (((List.range N).filter p).length = N) ↔ ∀ i < N, p i = true := by
  constructor
  · intro h i hi
    have hs := List.filter_sublist (l := List.range N) (p := p)
    have heq := hs.eq_of_length (by simpa using h)
    have hm : i ∈ (List.range N).filter p := by rw [heq]; simpa using hi
    exact (List.mem_filter.mp hm).2
  · intro h
    rw [List.filter_eq_self.mpr (fun a ha => h a (List.mem_range.mp ha))]
    exact List.length_range N

theorem length_filter_add_length_filter_not (l : List ℕ) (p : ℕ → Bool) :
    (l.filter p).length + (l.filter (fun a => !p a)).length = l.length := by
  induction l with
  | nil => simp
  | cons a l ih =>
    by_cases h : p a <;> simp [List.filter_cons, h, ← ih] <;> omega

theorem validRequest_arr (req : EmailWorker.EmailNotificationRequest)
    (l : List EmailWorker.Recipient) (hrec : req.recipients = .arr l)
    (hv : EmailWorker.validRequest req = true) :
    strTruthy req.reqType = true
    ∧ (req.reqType = some "new_issue" ∨ req.reqType = some "new_response")
    ∧ strTruthy req.projectId = true ∧ strTruthy req.projectName = true
    ∧ strTruthy req.issueId = true ∧ strTruthy req.issueTitle = true
    ∧ l.isEmpty = false ∧ (∀ r ∈ l, strTruthy r.email = true)
    ∧ (req.reqType = some "new_issue" → strTruthy req.issueContent = true)
    ∧ (req.reqType = some "new_response" →
        strTruthy req.responseContent = true ∧ strTruthy req.responseAuthor = true) := by
  unfold EmailWorker.validRequest at hv
  rw [hrec] at hv
  simp only [Bool.and_eq_true, Bool.or_eq_true, beq_iff_eq, Bool.not_eq_true',
    List.all_eq_true] at hv
  obtain ⟨⟨⟨⟨⟨⟨⟨h1, h2⟩, h3⟩, h4⟩, h5⟩, h6⟩, h7, h8⟩, h9⟩ := hv
  refine ⟨h1, h2, h3, h4, h5, h6, h7, h8, ?_, ?_⟩
  · intro ht
    rw [ht] at h9
    simpa using h9
  · intro ht
    rw [ht] at h9
    simpa using h9

theorem handleSendEmail_send_path (apiKey : Option String)
    (req : EmailWorker.EmailNotificationRequest) (sendOk : ℕ → Bool)
    (l : List EmailWorker.Recipient)
    (hk : strTruthy apiKey = true) (hrec : req.recipients = .arr l)
    (hv : EmailWorker.validRequest req = true) :
    (EmailWorker.handleSendEmail apiKey req sendOk).sends
        = l.map (fun r => [EmailWorker.recipientEmail r])
    ∧ (EmailWorker.handleSendEmail apiKey req sendOk).successCount
        = ((List.range l.length).filter (fun i => sendOk i)).length
    ∧ (EmailWorker.handleSendEmail apiKey req sendOk).status
        = (if ((List.range l.length).filter (fun i => sendOk i)).length = l.length then 200
           else if ((List.range l.length).filter (fun i => !sendOk i)).length = l.length
           then 500 else 207) := by
  obtain ⟨h1, h2, h3, h4, h5, h6, h7, h8, h9, h10⟩ := validRequest_arr req l hrec hv
  have hc3 : ¬(req.reqType ≠ some "new_issue" ∧ req.reqType ≠ some "new_response") := by
    rcases h2 with h | h <;> simp [h]
  have hany : (l.any fun r => !strTruthy r.email) = false := by
    cases hx : l.any (fun r => !strTruthy r.email)
    · rfl
    · exfalso
      obtain ⟨r, hrm, hrp⟩ := List.any_eq_true.mp hx
      rw [h8 r hrm] at hrp
      simp at hrp
  have hc12 : ¬(req.reqType = some "new_issue" ∧ (!strTruthy req.issueContent) = true) := by
    rintro ⟨ht, hcontent⟩
    rw [h9 ht] at hcontent
    simp at hcontent
  have hc13 : ¬(req.reqType = some "new_response" ∧
      (!strTruthy req.responseContent || !strTruthy req.responseAuthor) = true) := by
    rintro ⟨ht, hcontent⟩
    obtain ⟨hrc, hra⟩ := h10 ht
    rw [hrc, hra] at hcontent
    simp at hcontent
  unfold EmailWorker.handleSendEmail
  rw [hrec]
  simp only [hk, h1, h3, h4, h5, h6, Bool.not_true, Bool.false_eq_true, if_false,
    EmailWorker.RecipientsField.truthy, h7, hany, if_neg hc3, if_neg hc12, if_neg hc13]
  by_cases hsc : ((List.range l.length).filter (fun i => sendOk i)).length = l.length <;>
    simp [hsc]

set_option maxHeartbeats 1600000 in
theorem handleSendEmail_invalid (apiKey : Option String)
    (req : EmailWorker.EmailNotificationRequest) (sendOk : ℕ → Bool)
    (hk : strTruthy apiKey = true) (hv : EmailWorker.validRequest req = false) :
    EmailWorker.handleSendEmail apiKey req sendOk
      = { status := 400, success := false, sends := [], successCount := 0 } := by
  cases hrec : req.recipients with
  | missing =>
    unfold EmailWorker.handleSendEmail
    rw [hrec]
    simp only [hk, Bool.not_true, Bool.false_eq_true, if_false]
    repeat first | rfl | split
  | notArray =>
    unfold EmailWorker.handleSendEmail
    rw [hrec]
    simp only [hk, Bool.not_true, Bool.false_eq_true, if_false]
    repeat first | rfl | split
  | arr l =>
    unfold EmailWorker.handleSendEmail
    rw [hrec]
    by_cases h2 : strTruthy req.reqType = true
    case neg =>
      have e2 : strTruthy req.reqType = false := by revert h2; cases strTruthy req.reqType <;> simp
      simp [hk, e2]
    by_cases h3 : req.reqType ≠ some "new_issue" ∧ req.reqType ≠ some "new_response"
    case pos =>
      simp [hk, h2, if_pos h3]
    by_cases h4 : strTruthy req.projectId = true
    case neg =>
      have e4 : strTruthy req.projectId = false := by revert h4; cases strTruthy req.projectId <;> simp
      simp [hk, h2, if_neg h3, e4]
    by_cases h5 : strTruthy req.projectName = true
    case neg =>
      have e5 : strTruthy req.projectName = false := by revert h5; cases strTruthy req.projectName <;> simp
      simp [hk, h2, if_neg h3, h4, e5]
    by_cases h6 : strTruthy req.issueId = true
    case neg =>
      have e6 : strTruthy req.issueId = false := by revert h6; cases strTruthy req.issueId <;> simp
      simp [hk, h2, if_neg h3, h4, h5, e6]
    by_cases h7 : strTruthy req.issueTitle = true
    case neg =>
      have e7 : strTruthy req.issueTitle = false := by revert h7; cases strTruthy req.issueTitle <;> simp
      simp [hk, h2, if_neg h3, h4, h5, h6, e7]
    by_cases h8 : l.isEmpty = true
    case pos =>
      simp [hk, h2, if_neg h3, h4, h5, h6, h7, EmailWorker.RecipientsField.truthy, h8]
    by_cases h9 : (l.any fun r => !strTruthy r.email) = true
    case pos =>
      simp [hk, h2, if_neg h3, h4, h5, h6, h7, EmailWorker.RecipientsField.truthy,
        (by revert h8; cases l.isEmpty <;> simp : l.isEmpty = false), h9]
    by_cases h10 : req.reqType = some "new_issue" ∧ (!strTruthy req.issueContent) = true
    case pos =>
      have e8 : l.isEmpty = false := by revert h8; cases l.isEmpty <;> simp
      have e9 : (l.any fun r => !strTruthy r.email) = false := by
        revert h9; cases (l.any fun r => !strTruthy r.email) <;> simp
      obtain ⟨ht10, hc10⟩ := h10
      simp [hk, h2, if_neg h3, h4, h5, h6, h7, EmailWorker.RecipientsField.truthy,
        e8, e9, ht10, hc10]
    by_cases h11 : req.reqType = some "new_response" ∧
        (!strTruthy req.responseContent || !strTruthy req.responseAuthor) = true
    case pos =>
      have e8 : l.isEmpty = false := by revert h8; cases l.isEmpty <;> simp
      have e9 : (l.any fun r => !strTruthy r.email) = false := by
        revert h9; cases (l.any fun r => !strTruthy r.email) <;> simp
      obtain ⟨ht11, hc11⟩ := h11
      simp [hk, h2, if_neg h3, h4, h5, h6, h7, EmailWorker.RecipientsField.truthy,
        e8, e9, ht11, hc11, if_neg h10]
    exfalso
    have e8 : l.isEmpty = false := by revert h8; cases l.isEmpty <;> simp
    have c2 : req.reqType = some "new_issue" ∨ req.reqType = some "new_response" := by
      rcases not_and_or.mp h3 with h | h
      · exact Or.inl (not_not.mp h)
      · exact Or.inr (not_not.mp h)
    have c9 : ∀ r ∈ l, strTruthy r.email = true := by
      intro r hr
      by_contra hcon
      refine h9 (List.any_eq_true.mpr ⟨r, hr, ?_⟩)
      simp only [Bool.not_eq_true] at hcon
      simp [hcon]
    have hval : EmailWorker.validRequest req = true := by
      unfold EmailWorker.validRequest
      rw [hrec]
      simp only [Bool.and_eq_true, Bool.or_eq_true, beq_iff_eq, Bool.not_eq_true',
        List.all_eq_true]
      refine ⟨⟨⟨⟨⟨⟨⟨h2, c2⟩, h4⟩, h5⟩, h6⟩, h7⟩, e8, c9⟩, ?_⟩
      rcases c2 with ht | ht
      · rw [ht]
        simp only [if_pos rfl]
        rcases not_and_or.mp h10 with h | h
        · exact absurd ht h
        · revert h; cases strTruthy req.issueContent <;> simp
      · rw [ht]
        rw [if_neg (by simp)]
        rcases not_and_or.mp h11 with h | h
        · exact absurd ht h
        · revert h
          cases strTruthy req.responseContent <;> cases strTruthy req.responseAuthor <;> simp
    rw [hval] at hv
    exact absurd hv (by simp)

theorem validRequest_false_of_bad (req : EmailWorker.EmailNotificationRequest)
    (hbad : EmailWorker.badRequest req) : EmailWorker.validRequest req = false := by
  cases hb : EmailWorker.validRequest req
  · rfl
  · exfalso
    cases hrec : req.recipients with
    | missing =>
      unfold EmailWorker.validRequest at hb
      rw [hrec] at hb
      simp at hb
    | notArray =>
      unfold EmailWorker.validRequest at hb
      rw [hrec] at hb
      simp at hb
    | arr l =>
      obtain ⟨c1, c2, c3, c4, c5, c6, c7, c8, c9, c10⟩ := validRequest_arr req l hrec hb
      rcases hbad with h | ⟨t, ht, ht1, ht2⟩ | h | h | h | ⟨l', hl', r, hr, hre⟩
        | ⟨ht, hic⟩ | ⟨ht, hrc⟩
      · rw [h] at c1
        simp [strTruthy] at c1
      · rcases c2 with hc | hc
        · rw [ht] at hc
          exact ht1 (Option.some.inj hc)
        · rw [ht] at hc
          exact ht2 (Option.some.inj hc)
      · rw [hrec] at h
        simp at h
      · rw [hrec] at h
        simp at h
      · rw [hrec] at h
        have hl : l = [] := EmailWorker.RecipientsField.arr.inj h
        rw [hl] at c7
        simp at c7
      · rw [hrec] at hl'
        have hl : l' = l := (EmailWorker.RecipientsField.arr.inj hl').symm
        rw [hl] at hr
        exact hre (c8 r hr)
      · exact hic (c9 ht)
      · rcases hrc with hx | hx
        · exact hx (c10 ht).1
        · exact hx (c10 ht).2

/-- Claim C3: on a valid `new_issue`/`new_response` payload with recipient list `l`,
the dispatcher performs exactly one outbound send per recipient (each addressed to
that single recipient, never one multi-recipient email), and the reported success
count equals the number of sends that did not throw. -/
theorem c3_dispatcher_sends_per_recipient (apiKey : Option String)
    (req : EmailWorker.EmailNotificationRequest) (sendOk : ℕ → Bool)
    (l : List EmailWorker.Recipient)
    (hk : strTruthy apiKey = true) (hrec : req.recipients = .arr l)
    (hv : EmailWorker.validRequest req = true) :
    (EmailWorker.handleSendEmail apiKey req sendOk).sends
        = l.map (fun r => [EmailWorker.recipientEmail r])
    ∧ (EmailWorker.handleSendEmail apiKey req sendOk).sends.length = l.length
    ∧ (EmailWorker.handleSendEmail apiKey req sendOk).successCount
        = ((List.range l.length).filter (fun i => sendOk i)).length := by
  obtain ⟨hs, hc, _⟩ := handleSendEmail_send_path apiKey req sendOk l hk hrec hv
  refine ⟨hs, ?_, hc⟩
  rw [hs]
  simp

/-- Witness for C3: a concrete valid payload with two recipients, of which only the
first send succeeds. -/
theorem c3_dispatcher_sends_per_recipient_witness :
    strTruthy (some "SG.key") = true
    ∧ EmailWorker.sampleResponseRequest.recipients = .arr EmailWorker.sampleRecipients
    ∧ EmailWorker.validRequest EmailWorker.sampleResponseRequest = true
    ∧ ((EmailWorker.handleSendEmail (some "SG.key") EmailWorker.sampleResponseRequest
          (fun i => i == 0)).sends
        = EmailWorker.sampleRecipients.map (fun r => [EmailWorker.recipientEmail r])
      ∧ (EmailWorker.handleSendEmail (some "SG.key") EmailWorker.sampleResponseRequest
          (fun i => i == 0)).sends.length = EmailWorker.sampleRecipients.length
      ∧ (EmailWorker.handleSendEmail (some "SG.key") EmailWorker.sampleResponseRequest
          (fun i => i == 0)).successCount
        = ((List.range EmailWorker.sampleRecipients.length).filter
            (fun i => (i == 0 : Bool))).length) :=
  ⟨by decide, rfl, by decide,
    c3_dispatcher_sends_per_recipient (some "SG.key") EmailWorker.sampleResponseRequest
      (fun i => i == 0) EmailWorker.sampleRecipients (by decide) rfl (by decide)⟩

/-- Claim C4: a payload with missing/invalid `type`, missing/empty/malformed
`recipients`, or a missing type-specific field receives HTTP 400 and causes zero
outbound sends. -/
theorem c4_dispatcher_rejects_bad_payload (apiKey : Option String)
    (req : EmailWorker.EmailNotificationRequest) (sendOk : ℕ → Bool)
    (hk : strTruthy apiKey = true) (hbad : EmailWorker.badRequest req) :
    (EmailWorker.handleSendEmail apiKey req sendOk).status = 400
    ∧ (EmailWorker.handleSendEmail apiKey req sendOk).sends = [] := by
  have h := handleSendEmail_invalid apiKey req sendOk hk (validRequest_false_of_bad req hbad)
  rw [h]
  exact ⟨rfl, rfl⟩

/-- Witness for C4: a concrete payload missing its `type` field is rejected with no
sends. -/
theorem c4_dispatcher_rejects_bad_payload_witness :
    strTruthy (some "SG.key") = true
    ∧ EmailWorker.badRequest EmailWorker.sampleBadRequest
    ∧ (EmailWorker.handleSendEmail (some "SG.key") EmailWorker.sampleBadRequest
        (fun _ => true)).status = 400
    ∧ (EmailWorker.handleSendEmail (some "SG.key") EmailWorker.sampleBadRequest
        (fun _ => true)).sends = [] :=
  ⟨by decide, Or.inl rfl,
    c4_dispatcher_rejects_bad_payload (some "SG.key") EmailWorker.sampleBadRequest
      (fun _ => true) (by decide) (Or.inl rfl)⟩

/-- Claim C5: on a valid payload the response status is 200 when every recipient's
send succeeded, 500 when the API credential is missing or every send failed, and the
207 multi-status code when only some sends succeeded. -/
theorem c5_dispatcher_status (apiKey : Option String)
    (req : EmailWorker.EmailNotificationRequest) (sendOk : ℕ → Bool)
    (l : List EmailWorker.Recipient)
    (hrec : req.recipients = .arr l) (hv : EmailWorker.validRequest req = true) :
    (EmailWorker.handleSendEmail apiKey req sendOk).status =
      if strTruthy apiKey = false then 500
      else if ∀ i < l.length, sendOk i = true then 200
      else if ∀ i < l.length, sendOk i = false then 500
      else 207 := by
  by_cases hk : strTruthy apiKey = true
  · obtain ⟨_, _, hst⟩ := handleSendEmail_send_path apiKey req sendOk l hk hrec hv
    rw [hst, if_neg (by simp [hk] : ¬strTruthy apiKey = false)]
    by_cases hall : ∀ i < l.length, sendOk i = true
    · rw [if_pos ((filter_range_length_eq_iff _ _).mpr hall), if_pos hall]
    · rw [if_neg (fun hcl => hall ((filter_range_length_eq_iff _ _).mp hcl)), if_neg hall]
      by_cases hnone : ∀ i < l.length, sendOk i = false
      · have hnb : ∀ i < l.length, (!sendOk i) = true := fun i hi => by simp [hnone i hi]
        rw [if_pos ((filter_range_length_eq_iff _ _).mpr hnb), if_pos hnone]
      · have hno : ¬(((List.range l.length).filter (fun i => !sendOk i)).length
            = l.length) := by
          intro hcl
          refine hnone (fun i hi => ?_)
          have := (filter_range_length_eq_iff _ _).mp hcl i hi
          simpa using this
        rw [if_neg hno, if_neg hnone]
  · have hk' : strTruthy apiKey = false := by revert hk; cases strTruthy apiKey <;> simp
    rw [if_pos hk']
    unfold EmailWorker.handleSendEmail
    simp [hk']

/-- Witness for C5: the concrete payload with one succeeding and one failing send gets
the 207 multi-status code. -/
theorem c5_dispatcher_status_witness :
    EmailWorker.sampleResponseRequest.recipients = .arr EmailWorker.sampleRecipients
    ∧ EmailWorker.validRequest EmailWorker.sampleResponseRequest = true
    ∧ (EmailWorker.handleSendEmail (some "SG.key") EmailWorker.sampleResponseRequest
          (fun i => i == 0)).status =
        (if strTruthy (some "SG.key") = false then 500
         else if ∀ i < EmailWorker.sampleRecipients.length, (i == 0 : Bool) = true then 200
         else if ∀ i < EmailWorker.sampleRecipients.length, (i == 0 : Bool) = false then 500
         else 207) :=
  ⟨rfl, by decide,
    c5_dispatcher_status (some "SG.key") EmailWorker.sampleResponseRequest
      (fun i => i == 0) EmailWorker.sampleRecipients rfl (by decide)⟩

/- Helper lemmas for the thread-participants claim. -/

theorem foldl_invariant {α β : Type} (f : β → α → β) (Inv : β → Prop)
    (l : List α) (b : β) (hb : Inv b)
    (hf : ∀ a ∈ l, ∀ b', Inv b' → Inv (f b' a)) :
    Inv (l.foldl f b) := by
  induction l generalizing b with
  | nil => exact hb
  | cons a l ih =>
    exact ih (f b a) (hf a (by simp) b hb) (fun x hx b' hb' => hf x (by simp [hx]) b' hb')

theorem addParticipant_P (db : EmailSvc.Db) (P : EmailSvc.ParticipantRec → Prop)
    (uid dn : String) (ts : ℕ) (st : List EmailSvc.ParticipantRec × List String)
    (hnew : ∀ q : EmailSvc.ParticipantRec,
      q.userId = uid → q.timestamp = ts → EmailSvc.emailResolvable db q → P q)
    (hst : ∀ q ∈ st.1, P q) :
    ∀ q ∈ (EmailSvc.addParticipant db uid dn ts st).1, P q := by
  intro q hq
  unfold EmailSvc.addParticipant at hq
  split at hq
  next => exact hst q hq
  next u hu =>
    split at hq
    next e he =>
      split at hq
      next => exact hst q hq
      next hie =>
        simp only [List.concat_eq_append, List.mem_append, List.mem_singleton] at hq
        rcases hq with hq | hq
        · exact hst q hq
        · subst hq
          refine hnew _ rfl rfl ⟨u, hu, he, fun h0 => ?_⟩
          have h0' : e = "" := h0
          rw [h0'] at hie
          exact hie (by decide)
    next => exact hst q hq

theorem authorStep_P (db : EmailSvc.Db) (cur : Option String)
    (threadData : EmailSvc.ThreadDoc) (st : List EmailSvc.ParticipantRec × List String)
    (P : EmailSvc.ParticipantRec → Prop)
    (hnew : ∀ aid, threadData.authorId = some aid → some aid ≠ cur →
      ∀ q : EmailSvc.ParticipantRec, q.userId = aid → EmailSvc.emailResolvable db q → P q)
    (hst : ∀ q ∈ st.1, P q) :
    ∀ q ∈ (EmailSvc.authorStep db cur threadData st).1, P q := by
  intro q hq
  unfold EmailSvc.authorStep at hq
  split at hq
  next aid haid =>
    split at hq
    next hcond =>
      have hne : some aid ≠ cur := by
        simp only [Bool.and_eq_true, decide_eq_true_eq] at hcond
        exact hcond.2
      exact addParticipant_P db P aid _ _ st
        (fun q hq1 _ hq3 => hnew aid haid hne q hq1 hq3) hst q hq
    next => exact hst q hq
  next => exact hst q hq

theorem ownerStep_P (db : EmailSvc.Db) (cur : Option String)
    (threadData : EmailSvc.ThreadDoc) (st : List EmailSvc.ParticipantRec × List String)
    (P : EmailSvc.ParticipantRec → Prop)
    (hnew : ∀ pd oid, db.projects threadData.projectId = some pd → pd.ownerId = some oid →
      some oid ≠ cur →
      ∀ q : EmailSvc.ParticipantRec, q.userId = oid → EmailSvc.emailResolvable db q → P q)
    (hst : ∀ q ∈ st.1, P q) :
    ∀ q ∈ (EmailSvc.ownerStep db cur threadData st).1, P q := by
  intro q hq
  unfold EmailSvc.ownerStep at hq
  split at hq
  next => exact hst q hq
  next pd hpd =>
    split at hq
    next oid hoid =>
      split at hq
      next hcond =>
        have hne : some oid ≠ cur := by
          simp only [Bool.and_eq_true, decide_eq_true_eq] at hcond
          exact hcond.1.2
        exact addParticipant_P db P oid _ _ st
          (fun q hq1 _ hq3 => hnew pd oid hpd hoid hne q hq1 hq3) hst q hq
      next => exact hst q hq
    next => exact hst q hq

theorem respFold_P (db : EmailSvc.Db) (cur : Option String) (resp : EmailSvc.RespEntry)
    (st : List EmailSvc.ParticipantRec × List String)
    (P : EmailSvc.ParticipantRec → Prop)
    (hnew : ∀ rid, resp.authorId = some rid → some rid ≠ cur →
      ∀ q : EmailSvc.ParticipantRec, q.userId = rid → EmailSvc.emailResolvable db q → P q)
    (hst : ∀ q ∈ st.1, P q) :
    ∀ q ∈ (EmailSvc.respFold db cur st resp).1, P q := by
  intro q hq
  unfold EmailSvc.respFold at hq
  split at hq
  next rid hrid =>
    split at hq
    next hcond =>
      have hne : some rid ≠ cur := by
        simp only [Bool.and_eq_true, decide_eq_true_eq] at hcond
        exact hcond.1.2
      exact addParticipant_P db P rid _ _ st
        (fun q hq1 _ hq3 => hnew rid hrid hne q hq1 hq3) hst q hq
    next => exact hst q hq
  next => exact hst q hq

/-- Claim C6: `getThreadParticipants` returns at most 5 recipients, equal to the
full internal list with `userId`/`timestamp` stripped; the internal list is ordered
newest-first by participation timestamp, excludes the excluded identity, draws only
from the thread author, the project owner and the 5 most recent responders, and every
entry's identity resolves to a truthy email in the `users` collection (identities
without one, in particular anonymous ones, are dropped). -/
theorem c6_thread_participants (db : EmailSvc.Db) (threadId : String)
    (cur : Option String) :
    (EmailSvc.getThreadParticipants db threadId cur).length ≤ 5
    ∧ EmailSvc.getThreadParticipants db threadId cur
        = (EmailSvc.getThreadParticipantsFull db threadId cur).map
            (fun p => { email := p.email, name := p.name })
    ∧ List.Sorted EmailSvc.tsGE (EmailSvc.getThreadParticipantsFull db threadId cur)
    ∧ ∀ p ∈ EmailSvc.getThreadParticipantsFull db threadId cur,
        some p.userId ≠ cur ∧ p.userId ∈ EmailSvc.candidateIds db threadId
        ∧ EmailSvc.emailResolvable db p := by
  refine ⟨?_, rfl, ?_, ?_⟩
  · unfold EmailSvc.getThreadParticipants
    rw [List.length_map]
    unfold EmailSvc.getThreadParticipantsFull
    split
    · simp
    · exact List.length_take_le 5 _
  · unfold EmailSvc.getThreadParticipantsFull
    split
    · exact List.sorted_nil
    · exact List.Pairwise.sublist (List.take_sublist 5 _)
        (List.sorted_insertionSort EmailSvc.tsGE _)
  · intro p hp
    unfold EmailSvc.getThreadParticipantsFull at hp
    split at hp
    next => simp at hp
    next threadData hthread =>
      have hp2 : p ∈ (((List.insertionSort EmailSvc.respGE
          (EmailSvc.threadRespEntries db threadId)).take 5).foldl
            (EmailSvc.respFold db cur)
            (EmailSvc.ownerStep db cur threadData
              (EmailSvc.authorStep db cur threadData ([], [])))).1 :=
        (List.perm_insertionSort EmailSvc.tsGE _).subset (List.take_subset 5 _ hp)
      have hcand_author : ∀ aid, threadData.authorId = some aid →
          aid ∈ EmailSvc.candidateIds db threadId := by
        intro aid haid
        unfold EmailSvc.candidateIds
        rw [hthread]
        simp [haid]
      have hcand_owner : ∀ pd oid, db.projects threadData.projectId = some pd →
          pd.ownerId = some oid → oid ∈ EmailSvc.candidateIds db threadId := by
        intro pd oid hpd hoid
        unfold EmailSvc.candidateIds
        rw [hthread]
        simp [hpd, hoid]
      have hcand_resp : ∀ resp ∈ (List.insertionSort EmailSvc.respGE
            (EmailSvc.threadRespEntries db threadId)).take 5,
          ∀ rid, resp.authorId = some rid → rid ∈ EmailSvc.candidateIds db threadId := by
        intro resp hresp rid hrid
        unfold EmailSvc.candidateIds
        rw [hthread]
        simp only [List.mem_append, List.mem_filterMap]
        right
        exact ⟨resp, hresp, hrid⟩
      refine foldl_invariant (EmailSvc.respFold db cur)
        (fun st => ∀ q ∈ st.1,
          some q.userId ≠ cur ∧ q.userId ∈ EmailSvc.candidateIds db threadId
          ∧ EmailSvc.emailResolvable db q) _ _ ?_ ?_ p hp2
      · refine ownerStep_P db cur threadData _ _ ?_ ?_
        · intro pd oid hpd hoid hne q hq1 hq3
          exact ⟨by rw [hq1]; exact hne, by rw [hq1]; exact hcand_owner pd oid hpd hoid, hq3⟩
        · refine authorStep_P db cur threadData _ _ ?_ ?_
          · intro aid haid hne q hq1 hq3
            exact ⟨by rw [hq1]; exact hne, by rw [hq1]; exact hcand_author aid haid, hq3⟩
          · intro q hq
            simp at hq
      · intro resp hresp st' hst'
        refine respFold_P db cur resp st' _ ?_ hst'
        intro rid hrid hne q hq1 hq3
        exact ⟨by rw [hq1]; exact hne, by rw [hq1]; exact hcand_resp resp hresp rid hrid, hq3⟩

/- Helper lemmas for the lifecycle claims. -/

namespace Lifecycle

theorem updateThread_threads_same (s : Store) (tid : String) (f : ThreadDoc → ThreadDoc) :
    (s.updateThread tid f).threads tid = (s.threads tid).map f := by
  simp [Store.updateThread]

theorem updateThread_projects (s : Store) (tid : String) (f : ThreadDoc → ThreadDoc) :
    (s.updateThread tid f).projects = s.projects := rfl

theorem updateThread_responses (s : Store) (tid : String) (f : ThreadDoc → ThreadDoc) :
    (s.updateThread tid f).responses = s.responses := rfl

theorem updateProject_projects_same (s : Store) (pid : String) (f : ProjectDoc → ProjectDoc) :
    (s.updateProject pid f).projects pid = (s.projects pid).map f := by
  simp [Store.updateProject]

theorem updateProject_threads (s : Store) (pid : String) (f : ProjectDoc → ProjectDoc) :
    (s.updateProject pid f).threads = s.threads := rfl

theorem updateProject_responses (s : Store) (pid : String) (f : ProjectDoc → ProjectDoc) :
    (s.updateProject pid f).responses = s.responses := rfl

end Lifecycle

/-- Claim C2: closing a Thread with reason `solved` increments the parent project's
`closedIssues` by exactly 1 and sets the thread's `closingReason` to `solved`;
the founder reopening that thread restores `closedIssues` to its prior value and
clears `closingReason`. -/
theorem c2_close_reopen (s : Lifecycle.Store) (tid : String)
    (t : Lifecycle.ThreadDoc) (p : Lifecycle.ProjectDoc)
    (note founderName : String) (now now' : ℕ) (uid : String)
    (ht : s.threads tid = some t) (hp : s.projects t.projectId = some p)
    (huid : uid = p.ownerId) :
    (∃ t1, (Lifecycle.handleCloseThread s tid "solved" note founderName now).threads tid
        = some t1 ∧ t1.closingReason = some "solved" ∧ t1.status = "closed")
    ∧ (∃ p1, (Lifecycle.handleCloseThread s tid "solved" note founderName now).projects
          t.projectId = some p1 ∧ p1.closedIssues = p.closedIssues + 1)
    ∧ (∃ t2, (Lifecycle.handleUpdateStatusOpen
          (Lifecycle.handleCloseThread s tid "solved" note founderName now) tid uid
          now').threads tid = some t2 ∧ t2.closingReason = none ∧ t2.status = "open")
    ∧ (∃ p2, (Lifecycle.handleUpdateStatusOpen
          (Lifecycle.handleCloseThread s tid "solved" note founderName now) tid uid
          now').projects t.projectId = some p2 ∧ p2.closedIssues = p.closedIssues) := by
  have hclose : Lifecycle.handleCloseThread s tid "solved" note founderName now
      = (s.updateThread tid (fun t' =>
          { t' with status := "closed", closingReason := some "solved",
                    closingNote := if (jsTrim note).isEmpty then none else some (jsTrim note),
                    closedBy := some founderName, updatedAt := now,
                    closedAt := some now })).updateProject t.projectId
          (fun q => { q with closedIssues := q.closedIssues + 1 }) := by
    unfold Lifecycle.handleCloseThread
    rw [ht]
  set t1 : Lifecycle.ThreadDoc :=
    { t with status := "closed", closingReason := some "solved",
             closingNote := if (jsTrim note).isEmpty then none else some (jsTrim note),
             closedBy := some founderName, updatedAt := now, closedAt := some now } with ht1def
  set p1 : Lifecycle.ProjectDoc := { p with closedIssues := p.closedIssues + 1 } with hp1def
  have e1 : (Lifecycle.handleCloseThread s tid "solved" note founderName now).threads tid
      = some t1 := by
    rw [hclose, Lifecycle.updateProject_threads, Lifecycle.updateThread_threads_same, ht]
    rfl
  have e2 : (Lifecycle.handleCloseThread s tid "solved" note founderName now).projects
      t.projectId = some p1 := by
    rw [hclose, Lifecycle.updateProject_projects_same, Lifecycle.updateThread_projects, hp]
    rfl
  have ht1proj : t1.projectId = t.projectId := rfl
  have hp1owner : p1.ownerId = p.ownerId := rfl
  have hopen : Lifecycle.handleUpdateStatusOpen
      (Lifecycle.handleCloseThread s tid "solved" note founderName now) tid uid now'
      = ((Lifecycle.handleCloseThread s tid "solved" note founderName now).updateThread tid
          (fun t' => { t' with status := "open", updatedAt := now',
                               closingReason := none,
                               closingNote := none, closedBy := none })).updateProject t.projectId
          (fun q => { q with closedIssues := q.closedIssues - 1 }) := by
    simp only [Lifecycle.handleUpdateStatusOpen, e1, ht1proj, e2]
    rw [if_pos (huid.trans hp1owner.symm)]
  refine ⟨⟨t1, e1, rfl, rfl⟩, ⟨p1, e2, rfl⟩, ?_, ?_⟩
  · refine ⟨{ t1 with status := "open", updatedAt := now',
                      closingReason := none, closingNote := none,
                      closedBy := none }, ?_, rfl, rfl⟩
    rw [hopen, Lifecycle.updateProject_threads, Lifecycle.updateThread_threads_same, e1]
    rfl
  · refine ⟨{ p1 with closedIssues := p1.closedIssues - 1 }, ?_, by simp [hp1def]⟩
    rw [hopen, Lifecycle.updateProject_projects_same, Lifecycle.updateThread_projects, e2]
    rfl

theorem createResponse_state (s : Lifecycle.Store) (tid : String)
    (t : Lifecycle.ThreadDoc) (p : Lifecycle.ProjectDoc) (pl : Lifecycle.ResponsePayload)
    (ht : s.threads tid = some t) (hp : s.projects t.projectId = some p) :
    (Lifecycle.createResponse s tid pl.content pl.authorName pl.currentUid pl.anonUserId
        pl.now).threads tid = some { t with responseCount := t.responseCount + 1 }
    ∧ (Lifecycle.createResponse s tid pl.content pl.authorName pl.currentUid pl.anonUserId
        pl.now).projects = s.projects := by
  unfold Lifecycle.createResponse
  simp only [ht, hp]
  refine ⟨?_, rfl⟩
  rw [Lifecycle.updateThread_threads_same]
  show ((s.threads tid).map _) = _
  rw [ht]
  rfl

theorem applyResponses_state (tid : String) (ps : List Lifecycle.ResponsePayload) :
    ∀ (s : Lifecycle.Store) (t : Lifecycle.ThreadDoc) (p : Lifecycle.ProjectDoc),
      s.threads tid = some t → s.projects t.projectId = some p →
      ∃ t' : Lifecycle.ThreadDoc,
        (Lifecycle.applyResponses s tid ps).threads tid = some t'
        ∧ t'.projectId = t.projectId
        ∧ t'.responseCount = t.responseCount + ps.length
        ∧ (Lifecycle.applyResponses s tid ps).projects = s.projects := by
  induction ps with
  | nil =>
    intro s t p ht hp
    exact ⟨t, by simpa [Lifecycle.applyResponses] using ht, rfl, by simp, rfl⟩
  | cons pl ps ih =>
    intro s t p ht hp
    obtain ⟨h1, h2⟩ := createResponse_state s tid t p pl ht hp
    have hp2 : (Lifecycle.createResponse s tid pl.content pl.authorName pl.currentUid
        pl.anonUserId pl.now).projects
          ({ t with responseCount := t.responseCount + 1 } : Lifecycle.ThreadDoc).projectId
        = some p := by
      rw [h2]
      exact hp
    obtain ⟨t2, ha, hb, hc, hd⟩ := ih _ _ p h1 hp2
    refine ⟨t2, ?_, hb, ?_, ?_⟩
    · exact ha
    · rw [hc]
      show (t.responseCount + 1) + (ps.length : ℤ) = _
      simp only [List.length_cons]
      push_cast
      omega
    · rw [show Lifecycle.applyResponses s tid (pl :: ps)
          = Lifecycle.applyResponses (Lifecycle.createResponse s tid pl.content pl.authorName
              pl.currentUid pl.anonUserId pl.now) tid ps from rfl]
      rw [hd, h2]

theorem createThread_state (s0 : Lifecycle.Store)
    (tid pid title content authorName tag : String) (authorUid : Option String)
    (anonId : String) (now : ℕ) (p0 : Lifecycle.ProjectDoc)
    (hproj : s0.projects pid = some p0) :
    ∃ t0 : Lifecycle.ThreadDoc,
      (Lifecycle.createThread s0 tid pid title content authorName tag authorUid anonId
          now).threads tid = some t0
      ∧ t0.projectId = pid ∧ t0.responseCount = 0 ∧ t0.status = "open"
      ∧ (Lifecycle.createThread s0 tid pid title content authorName tag authorUid anonId
          now).projects pid
        = some { p0 with totalIssues := p0.totalIssues + 1 } := by
  unfold Lifecycle.createThread
  refine ⟨{ projectId := pid, title := title, content := content, status := "open",
            authorName := authorName, authorId := authorUid,
            anonymousId := if authorUid.isNone then some anonId else none,
            isPublic := true, tag := tag, responseCount := 0, closingReason := none,
            closingNote := none, closedBy := none, createdAt := now, updatedAt := now,
            closedAt := none }, ?_, rfl, rfl, rfl, ?_⟩
  · rw [Lifecycle.updateProject_threads]
    simp
  · rw [Lifecycle.updateProject_projects_same]
    show (s0.projects pid).map _ = _
    rw [hproj]
    rfl

/-- Claim C1: after creating a thread (fresh id, `responseCount = 0`) and appending N
responses, the thread's `responseCount` equals n after the n-th response for every
n ≤ N; after the founder deletes the thread, no Response document with that
`threadId` remains. -/
theorem c1_thread_response_lifecycle (s0 : Lifecycle.Store)
    (tid pid title content authorName tag : String) (authorUid : Option String)
    (anonId : String) (now : ℕ) (ps : List Lifecycle.ResponsePayload)
    (p0 : Lifecycle.ProjectDoc) (deleter : String)
    (hfresh : s0.threads tid = none)
    (hproj : s0.projects pid = some p0)
    (howner : deleter = p0.ownerId) :
    (∀ n, n ≤ ps.length →
      ∃ t, (Lifecycle.applyResponses
          (Lifecycle.createThread s0 tid pid title content authorName tag authorUid anonId
            now) tid (ps.take n)).threads tid = some t
        ∧ t.responseCount = (n : ℤ))
    ∧ ∀ r ∈ (Lifecycle.handleDeleteThread
          (Lifecycle.applyResponses
            (Lifecycle.createThread s0 tid pid title content authorName tag authorUid anonId
              now) tid ps) tid deleter).responses, r.threadId ≠ tid := by
  obtain ⟨t0, ht0, ht0p, ht0c, ht0s, hp1⟩ :=
    createThread_state s0 tid pid title content authorName tag authorUid anonId now p0 hproj
  have hp1' : (Lifecycle.createThread s0 tid pid title content authorName tag authorUid
      anonId now).projects t0.projectId
      = some { p0 with totalIssues := p0.totalIssues + 1 } := by
    rw [ht0p]
    exact hp1
  constructor
  · intro n hn
    obtain ⟨t', ha, hb, hc, hd⟩ := applyResponses_state tid (ps.take n) _ t0 _ ht0 hp1'
    refine ⟨t', ha, ?_⟩
    rw [hc, ht0c, List.length_take]
    simp [Nat.min_eq_left hn]
  · obtain ⟨t', ha, hb, hc, hd⟩ := applyResponses_state tid ps _ t0 _ ht0 hp1'
    have hpd : (Lifecycle.applyResponses
        (Lifecycle.createThread s0 tid pid title content authorName tag authorUid anonId
          now) tid ps).projects t'.projectId
        = some { p0 with totalIssues := p0.totalIssues + 1 } := by
      rw [hd, hb, ht0p]
      exact hp1
    intro r hr
    have hresp : (Lifecycle.handleDeleteThread
        (Lifecycle.applyResponses
          (Lifecycle.createThread s0 tid pid title content authorName tag authorUid anonId
            now) tid ps) tid deleter).responses
        = ((Lifecycle.applyResponses
            (Lifecycle.createThread s0 tid pid title content authorName tag authorUid anonId
              now) tid ps).responses).filter (fun r => r.threadId ≠ tid) := by
      unfold Lifecycle.handleDeleteThread
      simp only [ha, hpd]
      rw [if_pos (by rw [howner])]
      rw [Lifecycle.updateProject_responses]
    rw [hresp] at hr
    have := (List.mem_filter.mp hr).2
    exact of_decide_eq_true this

/-- Witness for C1: a concrete store, one response, then deletion by the owner. -/
theorem c1_thread_response_lifecycle_witness :
    Lifecycle.emptyStore.threads "t1" = none
    ∧ Lifecycle.emptyStore.projects "p1" = some Lifecycle.sampleProject
    ∧ "owner1" = Lifecycle.sampleProject.ownerId
    ∧ ((∀ n, n ≤ [Lifecycle.samplePayload].length →
        ∃ t, (Lifecycle.applyResponses
            (Lifecycle.createThread Lifecycle.emptyStore "t1" "p1" "T" "c" "User" "bug"
              none "12345678" 0) "t1" ([Lifecycle.samplePayload].take n)).threads "t1"
            = some t ∧ t.responseCount = (n : ℤ))
      ∧ ∀ r ∈ (Lifecycle.handleDeleteThread
            (Lifecycle.applyResponses
              (Lifecycle.createThread Lifecycle.emptyStore "t1" "p1" "T" "c" "User" "bug"
                none "12345678" 0) "t1" [Lifecycle.samplePayload]) "t1"
            "owner1").responses, r.threadId ≠ "t1") :=
  ⟨rfl, rfl, rfl,
    c1_thread_response_lifecycle Lifecycle.emptyStore "t1" "p1" "T" "c" "User" "bug"
      none "12345678" 0 [Lifecycle.samplePayload] Lifecycle.sampleProject "owner1"
      rfl rfl rfl⟩

/-- Witness for C2: a concrete open thread closed as `solved` and then reopened. -/
theorem c2_close_reopen_witness :
    Lifecycle.threadStore.threads "t1" = some Lifecycle.sampleThread
    ∧ Lifecycle.threadStore.projects Lifecycle.sampleThread.projectId
        = some Lifecycle.sampleProject
    ∧ "owner1" = Lifecycle.sampleProject.ownerId
    ∧ ((∃ t1, (Lifecycle.handleCloseThread Lifecycle.threadStore "t1" "solved" "Fixed"
          "Founder" 1).threads "t1" = some t1 ∧ t1.closingReason = some "solved"
          ∧ t1.status = "closed")
      ∧ (∃ p1, (Lifecycle.handleCloseThread Lifecycle.threadStore "t1" "solved" "Fixed"
          "Founder" 1).projects Lifecycle.sampleThread.projectId = some p1
          ∧ p1.closedIssues = Lifecycle.sampleProject.closedIssues + 1)
      ∧ (∃ t2, (Lifecycle.handleUpdateStatusOpen
            (Lifecycle.handleCloseThread Lifecycle.threadStore "t1" "solved" "Fixed"
              "Founder" 1) "t1" "owner1" 2).threads "t1" = some t2
          ∧ t2.closingReason = none ∧ t2.status = "open")
      ∧ (∃ p2, (Lifecycle.handleUpdateStatusOpen
            (Lifecycle.handleCloseThread Lifecycle.threadStore "t1" "solved" "Fixed"
              "Founder" 1) "t1" "owner1" 2).projects Lifecycle.sampleThread.projectId
            = some p2 ∧ p2.closedIssues = Lifecycle.sampleProject.closedIssues)) :=
  ⟨rfl, rfl, rfl,
    c2_close_reopen Lifecycle.threadStore "t1" Lifecycle.sampleThread
      Lifecycle.sampleProject "Fixed" "Founder" 1 2 "owner1" rfl rfl rfl⟩
